import Mathlib

/-!
Verification development for the real-time chat client's connection layer
(`src/chat_ui_frontend`).  The definitions below are shallow embeddings of
the JavaScript source: `useWebSocket.js` (backoff computation, inbound
parsing, outbound queue, connection state machine) and `App.js`
(history retrieval).  Theorems settle the specification claims.
-/

namespace ChatClient

/-- JavaScript JSON values, the possible results of `JSON.parse`. -/
inductive JsVal where
  | null
  | bool (b : Bool)
  | num (q : ℚ)
  | str (s : String)
  | arr (elems : List JsVal)
  | obj (fields : List (String × JsVal))

/-- Open-brace character, written via its code point. -/
def braceOpen : Char := Char.ofNat 123

/-- Close-brace character, written via its code point. -/
def braceClose : Char := Char.ofNat 125

/-- JSON insignificant whitespace characters. -/
def isJsonWs (c : Char) : Bool :=
  c = ' ' || c = Char.ofNat 9 || c = Char.ofNat 10 || c = Char.ofNat 13

/-- Drop leading JSON whitespace. -/
def skipJsonWs : List Char → List Char
  | [] => []
  | c :: cs => if isJsonWs c then skipJsonWs cs else c :: cs

/-- Value of a hexadecimal digit. -/
def hexVal (c : Char) : Option ℕ :=
  if '0' ≤ c ∧ c ≤ '9' then some (c.toNat - 48)
  else if 'a' ≤ c ∧ c ≤ 'f' then some (c.toNat - 87)
  else if 'A' ≤ c ∧ c ≤ 'F' then some (c.toNat - 55)
  else none

/-- Parse the body of a JSON string after the opening quote, handling
escape sequences; returns the decoded characters and the rest of the
input after the closing quote. -/
def parseStringChars : List Char → Option (List Char × List Char)
  | [] => none
  | '"' :: rest => some ([], rest)
  | '\\' :: 'u' :: a :: b :: c :: d :: rest =>
    (match hexVal a, hexVal b, hexVal c, hexVal d with
     | some x, some y, some z, some w =>
       (parseStringChars rest).map
         (fun p => (Char.ofNat (((x * 16 + y) * 16 + z) * 16 + w) :: p.1, p.2))
     | _, _, _, _ => none)
  | '\\' :: e :: rest =>
    let cont (c : Char) : Option (List Char × List Char) :=
      (parseStringChars rest).map (fun p => (c :: p.1, p.2))
    if e = '"' then cont '"'
    else if e = '\\' then cont '\\'
    else if e = '/' then cont '/'
    else if e = 'b' then cont (Char.ofNat 8)
    else if e = 'f' then cont (Char.ofNat 12)
    else if e = 'n' then cont (Char.ofNat 10)
    else if e = 'r' then cont (Char.ofNat 13)
    else if e = 't' then cont (Char.ofNat 9)
    else none
  | c :: rest =>
    if c.toNat < 32 then none
    else (parseStringChars rest).map (fun p => (c :: p.1, p.2))

/-- Decimal digit value. -/
def digitVal (c : Char) : Option ℕ :=
  if '0' ≤ c ∧ c ≤ '9' then some (c.toNat - 48) else none

/-- Take a maximal run of decimal digits. -/
def takeDigits : List Char → (List ℕ × List Char)
  | [] => ([], [])
  | c :: cs =>
    match digitVal c with
    | some d => let p := takeDigits cs; (d :: p.1, p.2)
    | none => ([], c :: cs)

/-- Digits to a natural number, most significant first. -/
def digitsToNat (ds : List ℕ) : ℕ := ds.foldl (fun a d => a * 10 + d) 0

/-- Parse an optional exponent suffix applied to mantissa `m`. -/
def parseExpPart (m : ℚ) (r : List Char) : Option (ℚ × List Char) :=
  let sp : Bool × List Char :=
    match r with
    | '+' :: t => (true, t)
    | '-' :: t => (false, t)
    | _ => (true, r)
  match sp.2 with
  | d :: _ =>
    if (digitVal d).isSome then
      let p := takeDigits sp.2
      let e := digitsToNat p.1
      some (if sp.1 then m * (10 : ℚ) ^ e else m / ((10 : ℚ) ^ e), p.2)
    else none
  | [] => none

/-- Parse an unsigned JSON number (integer part, optional fraction and
exponent). -/
def parseNumberCore (s1 : List Char) : Option (ℚ × List Char) :=
  match s1 with
  | [] => none
  | c :: _ =>
    if (digitVal c).isNone then none
    else
      let ip := takeDigits s1
      if 1 < ip.1.length ∧ ip.1.headI = 0 then none
      else
        let ipart : ℚ := (digitsToNat ip.1 : ℚ)
        let afterFrac : Option (ℚ × List Char) :=
          match ip.2 with
          | '.' :: r =>
            (match r with
             | d :: _ =>
               if (digitVal d).isSome then
                 let fp := takeDigits r
                 some (ipart + (digitsToNat fp.1 : ℚ) / ((10 : ℚ) ^ fp.1.length), fp.2)
               else none
             | [] => none)
          | _ => some (ipart, ip.2)
        match afterFrac with
        | none => none
        | some (m, s3) =>
          match s3 with
          | 'e' :: r => parseExpPart m r
          | 'E' :: r => parseExpPart m r
          | _ => some (m, s3)

/-- Parse a JSON number with optional leading minus sign. -/
def parseNumber (input : List Char) : Option (ℚ × List Char) :=
  match input with
  | '-' :: r => (parseNumberCore r).map (fun p => (-p.1, p.2))
  | _ => parseNumberCore input

/-- Strip an exact literal token from the input. -/
def stripToken : List Char → List Char → Option (List Char)
  | [], s => some s
  | c :: cs, d :: ds => if c = d then stripToken cs ds else none
  | _ :: _, [] => none

mutual

/-- Fuel-indexed recursive-descent parser for one JSON value. -/
def parseVal : ℕ → List Char → Option (JsVal × List Char)
  | 0, _ => none
  | fuel + 1, input =>
    match skipJsonWs input with
    | [] => none
    | c :: cs =>
      if c = '"' then
        (parseStringChars cs).map (fun p => (JsVal.str (String.mk p.1), p.2))
      else if c = '[' then
        match skipJsonWs cs with
        | ']' :: rest => some (JsVal.arr [], rest)
        | other => (parseArrItems fuel other).map (fun p => (JsVal.arr p.1, p.2))
      else if c = braceOpen then
        match skipJsonWs cs with
        | d :: rest =>
          if d = braceClose then some (JsVal.obj [], rest)
          else (parseObjItems fuel (d :: rest)).map (fun p => (JsVal.obj p.1, p.2))
        | [] => none
      else if c = 't' then
        (stripToken ['r', 'u', 'e'] cs).map (fun r => (JsVal.bool true, r))
      else if c = 'f' then
        (stripToken ['a', 'l', 's', 'e'] cs).map (fun r => (JsVal.bool false, r))
      else if c = 'n' then
        (stripToken ['u', 'l', 'l'] cs).map (fun r => (JsVal.null, r))
      else
        (parseNumber (c :: cs)).map (fun p => (JsVal.num p.1, p.2))

/-- Parse the comma-separated items of a non-empty JSON array, up to and
including the closing bracket. -/
def parseArrItems : ℕ → List Char → Option (List JsVal × List Char)
  | 0, _ => none
  | fuel + 1, input =>
    match parseVal fuel input with
    | none => none
    | some (v, rest) =>
      match skipJsonWs rest with
      | ',' :: r2 =>
        (parseArrItems fuel r2).map (fun p => (v :: p.1, p.2))
      | ']' :: r2 => some ([v], r2)
      | _ => none

/-- Parse the comma-separated members of a non-empty JSON object, up to
and including the closing brace. -/
def parseObjItems : ℕ → List Char → Option (List (String × JsVal) × List Char)
  | 0, _ => none
  | fuel + 1, input =>
    match skipJsonWs input with
    | '"' :: r0 =>
      match parseStringChars r0 with
      | none => none
      | some (key, r1) =>
        match skipJsonWs r1 with
        | ':' :: r2 =>
          (match parseVal fuel r2 with
           | none => none
           | some (v, r3) =>
             match skipJsonWs r3 with
             | ',' :: r4 =>
               (parseObjItems fuel r4).map
                 (fun p => ((String.mk key, v) :: p.1, p.2))
             | d :: r4 =>
               if d = braceClose then some ([(String.mk key, v)], r4) else none
             | [] => none)
        | _ => none
    | _ => none

end

/-- The embedding of `JSON.parse`: parse the whole string (allowing
surrounding whitespace); any leftover input is a parse error. -/
def jsonParse (s : String) : Option JsVal :=
  match parseVal (s.data.length + 2) s.data with
  | some (v, rest) => if skipJsonWs rest = [] then some v else none
  | none => none

/-! ### Inbound parsing (`safeParseInbound`, `useWebSocket.js` lines 36-48) -/

/-- The payload of a browser WebSocket message event: a string, or a
non-string payload (Blob or ArrayBuffer), kept opaque. -/
inductive WsData where
  | str (s : String)
  | binary (id : ℕ)
  deriving DecidableEq

/-- The record built by `safeParseInbound`.  A JS field holding `null`
is modelled as `none`; a successful parse whose result is the JSON
value `null` is `some JsVal.null` (in JS both read back as `null`,
which `deliveredData` accounts for). -/
structure InboundParsed where
  raw : WsData
  json : Option JsVal
  text : Option String

/-- Embedding of `safeParseInbound`: strings get a JSON parse attempt,
falling back to raw text; non-string payloads pass through with no
parse attempt.  Total, so inbound handling never raises. -/
def safeParseInbound (data : WsData) : InboundParsed :=
  match data with
  | WsData.str s =>
    (match jsonParse s with
     | some parsed => { raw := data, json := some parsed, text := none }
     | none => { raw := data, json := none, text := some s })
  | _ => { raw := data, json := none, text := none }

/-- The value selected by the delivery expression in the `onmessage`
handler (`useWebSocket.js` line 205 and 210). -/
inductive DeliveredVal where
  | json (v : JsVal)
  | text (s : String)
  | raw (d : WsData)

/-- Embedding of `parsed.json ?? parsed.text ?? parsed.raw`: the JS
nullish-coalescing operator skips both a missing field and a field
whose value is `null`, so a parsed JSON `null` falls through. -/
def deliveredData (p : InboundParsed) : DeliveredVal :=
  match p.json with
  | some JsVal.null =>
    (match p.text with
     | some s => DeliveredVal.text s
     | none => DeliveredVal.raw p.raw)
  | some v => DeliveredVal.json v
  | none =>
    (match p.text with
     | some s => DeliveredVal.text s
     | none => DeliveredVal.raw p.raw)

/-! ### Backoff computation (`computeBackoffDelay`, lines 24-29)

Modelled over the rationals; `rand` stands for the value of
`Math.random()`, which lies in the interval from 0 inclusive to 1
exclusive.  `Math.max(0, attempt - 1)` is natural-number truncated
subtraction. -/

/-- Embedding of `computeBackoffDelay(attempt, baseDelayMs, maxDelayMs)`
at a fixed random draw `rand`. -/
def computeBackoffDelay (rand : ℚ) (attempt : ℕ) (baseDelayMs maxDelayMs : ℚ) : ℚ :=
  let expTerm := min maxDelayMs (baseDelayMs * (2 : ℚ) ^ (attempt - 1))
  let jitterFactor : ℚ := 1 / 5
  let jitter := expTerm * jitterFactor * (rand * 2 - 1)
  max 0 (min maxDelayMs ((⌊expTerm + jitter⌋ : ℤ) : ℚ))

/-! ### Outbound queue (`flushQueue`, lines 138-151) -/

/-- Embedding of `flushQueue`, run when the socket is open.  `sendOk i`
tells whether the `i`-th `ws.send` call of this drain succeeds (the
transport may throw).  Returns the remaining queue and the list of
payloads transmitted, in transmission order: each payload is shifted
from the front, its transmission attempted, and on a throw it is
unshifted back to the front and the drain stops. -/
def flushQueue (sendOk : ℕ → Bool) : List String → List String × List String
  | [] => ([], [])
  | payload :: rest =>
    if sendOk 0 then
      let p := flushQueue (fun i => sendOk (i + 1)) rest
      (p.1, payload :: p.2)
    else (payload :: rest, [])

/-! ### The connection state machine (`useWebSocket`, lines 82-313) -/

/-- The hook's status values (`STATUS`, lines 10-14). -/
inductive ConnStatus where
  | connecting
  | connected
  | disconnected
  deriving DecidableEq

/-- The ready state of the tracked browser socket. -/
inductive SockState where
  | connecting
  | opened
  | closing
  | closed
  deriving DecidableEq

/-- The mutable state of one `useWebSocket` instance: `status` (React
state), `ws` (the readyState of `wsRef.current`, `none` when null),
`timer` (whether `reconnectTimerRef` holds a pending timer),
`manualClose` (`manualCloseRef`), `attempts` (`attemptsRef`), and
`queue` (`outboundQueueRef`). -/
structure HookState where
  status : ConnStatus
  ws : Option SockState
  timer : Bool
  manualClose : Bool
  attempts : ℕ
  queue : List String
  deriving DecidableEq

/-- The hook options that drive reconnection (`shouldReconnect`,
`maxRetries`; `maxRetries` defaults to `Infinity`, hence `ℕ∞`). -/
structure HookConfig where
  shouldReconnect : Bool
  maxRetries : ℕ∞

/-- `clearReconnectTimer` (lines 113-118). -/
def clearReconnectTimer (st : HookState) : HookState := { st with timer := false }

/-- `cleanupSocket` (lines 120-136): handlers detached and the tracked
socket reference nulled (the underlying socket, once handlerless, can
no longer affect the hook). -/
def cleanupSocket (st : HookState) : HookState := { st with ws := none }

/-- `scheduleReconnect` (lines 153-174): bail out when reconnection is
disabled or a manual close is flagged; when the next attempt number
(the source's local `nextAttempt`) exceeds `maxRetries`, only set
status disconnected; otherwise record the attempt and arm the timer.
The timer delay itself is computed by `computeBackoffDelay` and does
not affect the state shape, so only the fact that a timer is pending
is tracked. -/
def scheduleReconnect (cfg : HookConfig) (st : HookState) : HookState :=
  if !cfg.shouldReconnect then st
  else if st.manualClose then st
  else if ((st.attempts + 1 : ℕ) : ℕ∞) > cfg.maxRetries then
    { st with status := ConnStatus.disconnected }
  else
    { st with attempts := st.attempts + 1, timer := true }

/-- `connect` (lines 177-243), as the composite effect of its
sequential mutations: reset the manual-close flag, clean up any stale
socket, clear the pending timer, set status connecting, then construct
the socket.  `constructOk` tells whether `new WebSocket(url)` throws;
the catch branch sets status disconnected and schedules a reconnect
with the socket reference still null. -/
def connect (cfg : HookConfig) (constructOk : Bool) (st : HookState) : HookState :=
  if constructOk then
    { st with manualClose := false, ws := some SockState.connecting,
              timer := false, status := ConnStatus.connecting }
  else
    scheduleReconnect cfg
      { st with manualClose := false, ws := none, timer := false,
                status := ConnStatus.disconnected }

/-- The `ws.onopen` handler (lines 191-200): reset attempts, status
connected, then drain the queue on the now-open socket. -/
def wsOpen (sendOk : ℕ → Bool) (st : HookState) : HookState :=
  { st with attempts := 0, status := ConnStatus.connected,
            ws := some SockState.opened,
            queue := (flushQueue sendOk st.queue).1 }

/-- The `ws.onclose` handler (lines 226-237): status disconnected,
socket cleaned up, then a reconnect is scheduled unless the close was
manual or reconnection is disabled. -/
def wsClose (cfg : HookConfig) (st : HookState) : HookState :=
  if !st.manualClose && cfg.shouldReconnect then
    scheduleReconnect cfg
      { st with status := ConnStatus.disconnected, ws := none }
  else { st with status := ConnStatus.disconnected, ws := none }

/-- `disconnect` (lines 246-261): set the manual-close flag to
`preventReconnect`, clear any pending timer, close the socket and
clean it up (detaching its handlers), status disconnected. -/
def disconnect (preventReconnect : Bool) (st : HookState) : HookState :=
  { st with manualClose := preventReconnect, timer := false, ws := none,
            status := ConnStatus.disconnected }

/-- An argument to `send`: a string (used verbatim) or a non-string
value together with the outcome of `JSON.stringify` on it (`none` when
serialization throws, e.g. on a circular structure). -/
inductive OutMsg where
  | jsString (s : String)
  | jsObject (serialized : Option String)
  deriving DecidableEq

/-- The payload `send` computes (lines 266-276). -/
def serializePayload : OutMsg → Option String
  | OutMsg.jsString s => some s
  | OutMsg.jsObject ser => ser

/-- Result of a `send` call: the returned boolean, the new state, and
whether the call reached `connect()`. -/
structure SendResult where
  returned : Bool
  state : HookState
  connectCalled : Bool
  deriving DecidableEq

/-- `send` (lines 264-298).  `sendThrows` tells whether `ws.send`
throws when attempted on an open socket. -/
def send (m : OutMsg) (sendThrows : Bool) (st : HookState) : SendResult :=
  match serializePayload m with
  | none => ⟨false, st, false⟩
  | some payload =>
    match st.ws with
    | some SockState.opened =>
      if sendThrows then ⟨false, { st with queue := st.queue ++ [payload] }, false⟩
      else ⟨true, st, false⟩
    | w =>
      if (match w with
          | none => true
          | some SockState.closed => true
          | _ => false) && !st.manualClose then
        ⟨false, { st with queue := st.queue ++ [payload] }, true⟩
      else ⟨false, { st with queue := st.queue ++ [payload] }, false⟩

/-- Events that can hit a hook instance: consumer calls (`connect`,
`disconnect`, `send`), the reconnect timer firing, and transport
callbacks on the tracked socket. -/
inductive HookEv where
  | connectEv (constructOk : Bool)
  | disconnectEv (preventReconnect : Bool)
  | timerFireEv (constructOk : Bool)
  | wsOpenEv (sendOk : ℕ → Bool)
  | wsCloseEv
  | wsErrorEv
  | sendEv (m : OutMsg) (sendThrows : Bool) (constructOk : Bool)

/-- One event step.  `none` means the event cannot occur in this state
(no pending timer to fire, no tracked socket to report open or close).
The `onerror` handler only invokes the consumer callback and changes
no connection state (line 219-224). -/
def step (cfg : HookConfig) (st : HookState) : HookEv → Option HookState
  | HookEv.connectEv ok => some (connect cfg ok st)
  | HookEv.disconnectEv p => some (disconnect p st)
  | HookEv.timerFireEv ok => if st.timer then some (connect cfg ok st) else none
  | HookEv.wsOpenEv f =>
    (match st.ws with
     | some SockState.connecting => some (wsOpen f st)
     | _ => none)
  | HookEv.wsCloseEv =>
    (match st.ws with
     | some _ => some (wsClose cfg st)
     | none => none)
  | HookEv.wsErrorEv =>
    (match st.ws with
     | some _ => some st
     | none => none)
  | HookEv.sendEv m thr ok =>
    let r := send m thr st
    some (if r.connectCalled then connect cfg ok r.state else r.state)

/-- Run a sequence of events; an event that cannot occur leaves the
state unchanged. -/
def runTrace (cfg : HookConfig) : HookState → List HookEv → HookState
  | st, [] => st
  | st, e :: es => runTrace cfg ((step cfg st e).getD st) es

/-! ### History retrieval (`fetchRecentMessagesSafe`, `App.js` lines 22-72) -/

/-- JS truthiness on JSON values: `null`, `false`, `0` and the empty
string are falsy. -/
def jsFalsy : JsVal → Bool
  | JsVal.null => true
  | JsVal.bool b => !b
  | JsVal.num q => if q = 0 then true else false
  | JsVal.str s => if s = "" then true else false
  | _ => false

/-- Last-wins association lookup (JS object field read; `JSON.parse`
keeps the last duplicate key). -/
def lookupField : List (String × JsVal) → String → Option JsVal
  | [], _ => none
  | (k, v) :: rest, key => if k = key then some v else lookupField rest key

/-- Property access `v?.k`: `none` models JS `undefined` (missing field
or access through a non-object). -/
def jsGet (v : JsVal) (k : String) : Option JsVal :=
  match v with
  | JsVal.obj fields => lookupField fields.reverse k
  | _ => none

/-- JS `x ?? y` where `x` is a field access: falls through on a missing
field (`undefined`) and on a `null` value. -/
def coalesceOpt (x y : Option JsVal) : Option JsVal :=
  match x with
  | none => y
  | some JsVal.null => y
  | some v => some v

/-- Final step of a `??` chain, with a never-nullish default. -/
def coalesceField (x : Option JsVal) (y : JsVal) : JsVal :=
  match x with
  | none => y
  | some JsVal.null => y
  | some v => v

/-- Arrays and objects are the values where JS `typeof` yields
`'object'` among JSON values (both branch into field extraction in
`toMessage`). -/
def isObjLike : JsVal → Bool
  | JsVal.obj _ => true
  | JsVal.arr _ => true
  | _ => false

/-- A normalized display record (`toMessage`'s result shape). -/
structure MessageRec where
  id : JsVal
  sender : JsVal
  content : JsVal
  timestamp : JsVal
  name : JsVal
  avatarText : JsVal

/-- Embedding of the `toMessage` normalizer inside
`fetchRecentMessagesSafe`.  `strOfNum` stands for the host's
number-to-string conversion used by `String(...)`; `now` stands for
`Date.now()`. -/
def toMessage (strOfNum : ℚ → String) (now : ℕ) (item : JsVal) (index : ℕ) :
    MessageRec :=
  if jsFalsy item ∨ isObjLike item = false then
    -- `!item || typeof item !== 'object'` branch: String(item ?? '')
    let contentStr : String :=
      match item with
      | JsVal.null => ""
      | JsVal.bool b => if b then "true" else "false"
      | JsVal.num q => strOfNum q
      | JsVal.str s => s
      | JsVal.arr _ => ""
      | JsVal.obj _ => ""
    { id := JsVal.str ("hist-" ++ toString now ++ "-" ++ toString index),
      sender := JsVal.str "other",
      content := JsVal.str contentStr,
      timestamp := JsVal.num now,
      name := JsVal.str "Assistant",
      avatarText := JsVal.str "AI" }
  else
    let id := coalesceField
      (coalesceOpt (coalesceOpt (jsGet item "id") (jsGet item "_id")) (jsGet item "uuid"))
      (JsVal.str ("hist-" ++ toString now ++ "-" ++ toString index))
    let content := coalesceField
      (coalesceOpt (coalesceOpt (jsGet item "content") (jsGet item "message"))
        (jsGet item "text"))
      (JsVal.str "")
    let senderDefault : JsVal :=
      match jsGet item "user" with
      | some (JsVal.str s) => if s = "me" then JsVal.str "me" else JsVal.str "other"
      | _ => JsVal.str "other"
    let sender := coalesceField
      (coalesceOpt (jsGet item "sender") (jsGet item "role")) senderDefault
    let timestamp := coalesceField
      (coalesceOpt (coalesceOpt (jsGet item "timestamp") (jsGet item "createdAt"))
        (jsGet item "time"))
      (JsVal.num now)
    let senderIsMe : Bool :=
      match sender with
      | JsVal.str s => if s = "me" then true else false
      | _ => false
    let name := coalesceField (jsGet item "name")
      (if senderIsMe then JsVal.str "You" else JsVal.str "Assistant")
    let avatarText := coalesceField (jsGet item "avatarText")
      (if senderIsMe then JsVal.str "ME" else JsVal.str "AI")
    { id := id, sender := sender, content := content,
      timestamp := timestamp, name := name, avatarText := avatarText }

/-- The outcome of one `fetch` on a candidate URL: the fetch threw, the
response was not ok, or a body was decoded.  A body that fails JSON
decoding surfaces as `body JsVal.null` (the code's
`res.json().catch(() => null)`). -/
inductive FetchOutcome where
  | netErr
  | notOk
  | body (v : JsVal)

/-- The two candidate history URLs tried in order (`App.js` line 25). -/
def fetchCandidates (apiBase : String) : List String :=
  [apiBase ++ "/messages", apiBase ++ "/api/messages"]

/-- Shape extraction: a bare array, else an object with an array under
`messages`, else under `data`, else the empty list. -/
def extractList (data : JsVal) : List JsVal :=
  match data with
  | JsVal.arr xs => xs
  | _ =>
    match jsGet data "messages" with
    | some (JsVal.arr xs) => xs
    | _ =>
      match jsGet data "data" with
      | some (JsVal.arr xs) => xs
      | _ => []

/-- The candidate loop of `fetchRecentMessagesSafe`: failures and falsy
bodies move to the next candidate; a non-falsy body either yields the
mapped list or, when the extracted list is empty, returns the empty
result immediately. -/
def fetchLoop (strOfNum : ℚ → String) (now : ℕ) (resp : String → FetchOutcome) :
    List String → List MessageRec
  | [] => []
  | url :: rest =>
    match resp url with
    | FetchOutcome.netErr => fetchLoop strOfNum now resp rest
    | FetchOutcome.notOk => fetchLoop strOfNum now resp rest
    | FetchOutcome.body v =>
      if jsFalsy v then fetchLoop strOfNum now resp rest
      else
        let list := extractList v
        if list.isEmpty then []
        else list.mapIdx (fun i item => toMessage strOfNum now item i)

/-- Embedding of `fetchRecentMessagesSafe`: empty result when no API
base is configured, else the candidate loop. -/
def fetchRecentMessagesSafe (strOfNum : ℚ → String) (now : ℕ) (apiBase : String)
    (resp : String → FetchOutcome) : List MessageRec :=
  if apiBase = "" then []
  else fetchLoop strOfNum now resp (fetchCandidates apiBase)

/-! ### Listener interface (`useWebSocket` return object vs
`ChatContainer`) -/

/-- The field names of the object returned by `useWebSocket`
(`useWebSocket.js` lines 315-327). -/
def useWebSocketReturnFields : List String :=
  ["status", "connected", "connecting", "disconnected", "send", "connect",
   "disconnect", "lastMessage", "lastEvent", "attempts", "url"]

/-- The field names `ChatContainer` destructures from `useWebSocket()`
(`ChatContainer.jsx` lines 23-28). -/
def chatContainerHookBindings : List String :=
  ["status", "send", "reconnect", "onMessage"]

/-! ### Event discriminators, used to state temporal claims -/

/-- Whether an event is a consumer `connect()` call. -/
def isConnectEv : HookEv → Bool
  | HookEv.connectEv _ => true
  | _ => false

/-- Whether an event is a consumer `send()` call. -/
def isSendEv : HookEv → Bool
  | HookEv.sendEv _ _ _ => true
  | _ => false

/-- Whether an event is a consumer `disconnect()` call. -/
def isDisconnectEv : HookEv → Bool
  | HookEv.disconnectEv _ => true
  | _ => false

/-- A fetch outcome from which the history loop cannot produce a
non-empty result: a thrown fetch, a non-ok response, a falsy decoded
body, or a body of unrecognized (or empty) shape. -/
def emptyOutcome : FetchOutcome → Prop
  | FetchOutcome.netErr => True
  | FetchOutcome.notOk => True
  | FetchOutcome.body v => jsFalsy v = true ∨ extractList v = []

/-! ## Claim theorems -/

/-- C5: for every inbound transport message, a string payload gets a
JSON decode attempt and on decode failure the event has a null parsed
field and text equal to the raw string (for the frame "not json":
parsed null, text "not json"); a non-string payload passes through as
opaque raw with no decode attempt.  `safeParseInbound` is a total
function, so inbound handling never raises to the caller. -/
theorem c5_inbound_parse_policy (d : WsData) :
    (∀ s, d = WsData.str s → jsonParse s = none →
      (safeParseInbound d).json = none ∧ (safeParseInbound d).text = some s ∧
      (safeParseInbound d).raw = d)
  ∧ (∀ n, d = WsData.binary n →
      safeParseInbound d = { raw := d, json := none, text := none })
  ∧ jsonParse "not json" = none
  ∧ safeParseInbound (WsData.str "not json") =
      { raw := WsData.str "not json", json := none, text := some "not json" } := by
  refine ⟨?_, ?_, rfl, rfl⟩
  · rintro s rfl hnone
    simp [safeParseInbound, hnone]
  · rintro n rfl
    rfl

/-- Witness for C5 at the inbound frame "not json". -/
theorem c5_inbound_parse_policy_witness :
    (safeParseInbound (WsData.str "not json")).json = none ∧
    (safeParseInbound (WsData.str "not json")).text = some "not json" := by
  have h := (c5_inbound_parse_policy (WsData.str "not json")).1 "not json" rfl rfl
  exact ⟨h.1, h.2.1⟩

/-- C10: the inbound string frame "null" decodes successfully to the
JSON value null, and the delivered value (selected by
`parsed.json ?? parsed.text ?? parsed.raw`) is the raw string "null",
not the decoded null, because both `json` and `text` read as null for
this frame. -/
theorem c10_null_frame_delivers_raw_string :
    jsonParse "null" = some JsVal.null
  ∧ safeParseInbound (WsData.str "null") =
      { raw := WsData.str "null", json := some JsVal.null, text := none }
  ∧ deliveredData (safeParseInbound (WsData.str "null")) =
      DeliveredVal.raw (WsData.str "null") :=
  ⟨rfl, rfl, rfl⟩

/-- C6: a `send` argument that is not a string and whose serialization
fails returns false immediately, the hook state (in particular the
outbound queue) is unchanged, and `connect` is not reached, so the
payload is never retried. -/
theorem c6_nonserializable_send_rejected (st : HookState) (sendThrows : Bool) :
    send (OutMsg.jsObject none) sendThrows st =
      { returned := false, state := st, connectCalled := false }
  ∧ (send (OutMsg.jsObject none) sendThrows st).state.queue = st.queue :=
  ⟨rfl, rfl⟩

/-- C3 (code bug): `ChatContainer` destructures listener-registration
fields `onMessage` (used as a subscribe function returning an
unsubscribe) and `reconnect` from `useWebSocket()`, but the hook's
return object provides neither, so the subscribe-style listener
interface the claim describes does not exist in the hook. -/
theorem c3_subscribe_interface_missing :
    ("onMessage" ∈ chatContainerHookBindings ∧
     "onMessage" ∉ useWebSocketReturnFields)
  ∧ ("reconnect" ∈ chatContainerHookBindings ∧
     "reconnect" ∉ useWebSocketReturnFields) := by
  decide

/-! ### Queue lemmas -/

theorem scheduleReconnect_queue (cfg : HookConfig) (st : HookState) :
    (scheduleReconnect cfg st).queue = st.queue := by
  unfold scheduleReconnect
  split_ifs <;> rfl

theorem scheduleReconnect_ws (cfg : HookConfig) (st : HookState) :
    (scheduleReconnect cfg st).ws = st.ws := by
  unfold scheduleReconnect
  split_ifs <;> rfl

theorem connect_queue (cfg : HookConfig) (ok : Bool) (st : HookState) :
    (connect cfg ok st).queue = st.queue := by
  unfold connect
  split_ifs with h
  · rfl
  · rw [scheduleReconnect_queue]

theorem connect_ws_not_open (cfg : HookConfig) (ok : Bool) (st : HookState) :
    (connect cfg ok st).ws ≠ some SockState.opened := by
  unfold connect
  split_ifs with h
  · simp
  · rw [scheduleReconnect_ws]
    simp

/-- A `send` event on a non-open socket is always enabled, appends the
serialized payload (if any) to the queue, and leaves the socket
non-open. -/
theorem step_send_appends (cfg : HookConfig) (st : HookState) (m : OutMsg)
    (thr ok : Bool) (h : st.ws ≠ some SockState.opened) :
    ∃ st', step cfg st (HookEv.sendEv m thr ok) = some st' ∧
      st'.queue = st.queue ++ (serializePayload m).toList ∧
      st'.ws ≠ some SockState.opened := by
  cases hm : serializePayload m with
  | none =>
    refine ⟨st, ?_, by simp, h⟩
    simp [step, send, hm]
  | some payload =>
    have happ : ({ st with queue := st.queue ++ [payload] } : HookState).queue
        = st.queue ++ [payload] := rfl
    have hcase : ∀ w : Option SockState, w = st.ws → w ≠ some SockState.opened →
        ∃ st', step cfg st (HookEv.sendEv m thr ok) = some st' ∧
          st'.queue = st.queue ++ [payload] ∧
          st'.ws ≠ some SockState.opened := by
      intro w hw hnot
      cases hmc : st.manualClose with
      | false =>
        cases w with
        | none =>
          refine ⟨connect cfg ok { st with queue := st.queue ++ [payload] },
            ?_, ?_, connect_ws_not_open cfg ok _⟩
          · simp [step, send, hm, ← hw, hmc]
          · rw [connect_queue]
        | some s =>
          cases s with
          | opened => exact absurd rfl hnot
          | connecting =>
            refine ⟨{ st with queue := st.queue ++ [payload] }, ?_, happ, ?_⟩
            · simp [step, send, hm, ← hw, hmc]
            · show st.ws ≠ some SockState.opened
              exact h
          | closing =>
            refine ⟨{ st with queue := st.queue ++ [payload] }, ?_, happ, ?_⟩
            · simp [step, send, hm, ← hw, hmc]
            · show st.ws ≠ some SockState.opened
              exact h
          | closed =>
            refine ⟨connect cfg ok { st with queue := st.queue ++ [payload] },
              ?_, ?_, connect_ws_not_open cfg ok _⟩
            · simp [step, send, hm, ← hw, hmc]
            · rw [connect_queue]
      | true =>
        cases w with
        | none =>
          refine ⟨{ st with queue := st.queue ++ [payload] }, ?_, happ, ?_⟩
          · simp [step, send, hm, ← hw, hmc]
          · show st.ws ≠ some SockState.opened
            exact h
        | some s =>
          cases s with
          | opened => exact absurd rfl hnot
          | connecting =>
            refine ⟨{ st with queue := st.queue ++ [payload] }, ?_, happ, ?_⟩
            · simp [step, send, hm, ← hw, hmc]
            · show st.ws ≠ some SockState.opened
              exact h
          | closing =>
            refine ⟨{ st with queue := st.queue ++ [payload] }, ?_, happ, ?_⟩
            · simp [step, send, hm, ← hw, hmc]
            · show st.ws ≠ some SockState.opened
              exact h
          | closed =>
            refine ⟨{ st with queue := st.queue ++ [payload] }, ?_, happ, ?_⟩
            · simp [step, send, hm, ← hw, hmc]
            · show st.ws ≠ some SockState.opened
              exact h
    obtain ⟨st', h1, h2, h3⟩ := hcase st.ws rfl h
    exact ⟨st', h1, by simpa using h2, h3⟩

/-- Sequential `send` calls while the socket is not open append their
serialized payloads to the queue in call order. -/
theorem sends_enqueue_in_order (cfg : HookConfig) (msgs : List OutMsg) :
    ∀ st : HookState, st.ws ≠ some SockState.opened →
    (runTrace cfg st (msgs.map fun m => HookEv.sendEv m false true)).queue
      = st.queue ++ msgs.filterMap serializePayload := by
  induction msgs with
  | nil => intro st _; simp [runTrace]
  | cons m rest ih =>
    intro st h
    obtain ⟨st', hstep, hq, hws⟩ := step_send_appends cfg st m false true h
    have : runTrace cfg st
        (((m :: rest).map fun m => HookEv.sendEv m false true))
        = runTrace cfg st' (rest.map fun m => HookEv.sendEv m false true) := by
      simp [runTrace, hstep]
    rw [this, ih st' hws, hq]
    cases hm : serializePayload m <;> simp [hm, List.filterMap_cons]

/-- Transmitted prefix and remaining queue partition the original
queue, in order. -/
theorem flushQueue_decomposition (sendOk : ℕ → Bool) (q : List String) :
    (flushQueue sendOk q).2 ++ (flushQueue sendOk q).1 = q := by
  induction q generalizing sendOk with
  | nil => simp [flushQueue]
  | cons p rest ih =>
    by_cases h : sendOk 0
    · simp [flushQueue, h, ih]
    · simp [flushQueue, h]

/-- Every payload transmitted during a drain had a successful
transmission attempt. -/
theorem flushQueue_sent_ok (sendOk : ℕ → Bool) (q : List String) :
    ∀ i, i < (flushQueue sendOk q).2.length → sendOk i = true := by
  induction q generalizing sendOk with
  | nil => intro i hi; simp [flushQueue] at hi
  | cons p rest ih =>
    intro i hi
    by_cases h : sendOk 0
    · simp [flushQueue, h] at hi
      cases i with
      | zero => exact h
      | succ j =>
        exact ih (fun k => sendOk (k + 1)) j (by omega)
    · simp [flushQueue, h] at hi

/-- The drain stops only when the queue is empty or when the payload
now at the front of the remaining queue had a failing transmission
attempt (it was shifted, its send threw, and it was unshifted back). -/
theorem flushQueue_remaining (sendOk : ℕ → Bool) (q : List String) :
    (flushQueue sendOk q).1 = [] ∨
      sendOk ((flushQueue sendOk q).2.length) = false := by
  induction q generalizing sendOk with
  | nil => left; rfl
  | cons p rest ih =>
    by_cases h : sendOk 0
    · rcases ih (fun k => sendOk (k + 1)) with h1 | h2
      · left; simp [flushQueue, h, h1]
      · right; simpa [flushQueue, h, Nat.add_comm] using h2
    · right
      simp [flushQueue, h]

/-- When every transmission attempt succeeds, the drain empties the
queue and transmits exactly the queued payloads, in order. -/
theorem flushQueue_all_ok (sendOk : ℕ → Bool) (q : List String)
    (h : ∀ i, sendOk i = true) : flushQueue sendOk q = ([], q) := by
  induction q generalizing sendOk with
  | nil => rfl
  | cons p rest ih =>
    simp [flushQueue, h 0, ih (fun k => sendOk (k + 1)) (fun k => h (k + 1))]

/-- C2: `send` calls issued while the connection is not open append
their serialized payloads to the outbound queue in call order; the
open-event drain transmits from that queue in FIFO order (exactly the
queued payloads, each exactly once, when no attempt throws), removes a
payload only around its own transmission attempt, and a payload whose
transmission throws is back at the front of the remaining queue rather
than dropped. -/
theorem c2_outbound_fifo (cfg : HookConfig) (st : HookState) (msgs : List OutMsg)
    (sendOk : ℕ → Bool) (q : List String)
    (hws : st.ws ≠ some SockState.opened) :
    (runTrace cfg st (msgs.map fun m => HookEv.sendEv m false true)).queue
        = st.queue ++ msgs.filterMap serializePayload
  ∧ (flushQueue sendOk q).2 ++ (flushQueue sendOk q).1 = q
  ∧ (∀ i, i < (flushQueue sendOk q).2.length → sendOk i = true)
  ∧ ((flushQueue sendOk q).1 = [] ∨
      sendOk ((flushQueue sendOk q).2.length) = false)
  ∧ ((∀ i, sendOk i = true) → flushQueue sendOk q = ([], q))
  ∧ (∀ f st2, st2.ws = some SockState.connecting →
      step cfg st2 (HookEv.wsOpenEv f) = some (wsOpen f st2) ∧
      (wsOpen f st2).queue = (flushQueue f st2.queue).1) :=
  ⟨sends_enqueue_in_order cfg msgs st hws,
   flushQueue_decomposition sendOk q,
   flushQueue_sent_ok sendOk q,
   flushQueue_remaining sendOk q,
   flushQueue_all_ok sendOk q,
   fun f st2 h2 => ⟨by simp [step, h2], rfl⟩⟩

/-- Witness for C2: two queued sends while disconnected, then a drain
where the second transmission attempt throws. -/
theorem c2_outbound_fifo_witness :
    (({ status := ConnStatus.disconnected, ws := none, timer := false,
        manualClose := false, attempts := 0, queue := [] } : HookState).ws
        ≠ some SockState.opened)
  ∧ (runTrace { shouldReconnect := true, maxRetries := ⊤ }
        { status := ConnStatus.disconnected, ws := none, timer := false,
          manualClose := false, attempts := 0, queue := [] }
        ([OutMsg.jsString "a", OutMsg.jsObject (some "b")].map
          fun m => HookEv.sendEv m false true)).queue
      = [] ++ [OutMsg.jsString "a",
               OutMsg.jsObject (some "b")].filterMap serializePayload := by
  constructor
  · decide
  · exact (c2_outbound_fifo { shouldReconnect := true, maxRetries := ⊤ }
      { status := ConnStatus.disconnected, ws := none, timer := false,
        manualClose := false, attempts := 0, queue := [] }
      [OutMsg.jsString "a", OutMsg.jsObject (some "b")]
      (fun _ => true) ["x"] (by decide)).1

/-- C4 counterexample: after `disconnect()` with its default
`preventReconnect: true`, the transport reference is absent, yet a
subsequent `send` does not trigger a connect (the manual-close flag
guards the `connect()` call at `useWebSocket.js` line 293), refuting
the claim's unconditional "whenever the underlying transport object is
absent or in the fully closed state ... triggers a connect". -/
theorem c4_counterexample :
    ((disconnect true
        { status := ConnStatus.connected, ws := some SockState.opened,
          timer := false, manualClose := false, attempts := 0,
          queue := [] }).ws = none)
  ∧ (send (OutMsg.jsString "hello") false
        (disconnect true
          { status := ConnStatus.connected, ws := some SockState.opened,
            timer := false, manualClose := false, attempts := 0,
            queue := [] })).connectCalled = false
  ∧ (send (OutMsg.jsString "hello") false
        (disconnect true
          { status := ConnStatus.connected, ws := some SockState.opened,
            timer := false, manualClose := false, attempts := 0,
            queue := [] })).state.queue = ["hello"] := by
  refine ⟨rfl, rfl, rfl⟩

/-- C4 (amended): a `send` while the connection is not open enqueues
the serialized payload and returns false; it triggers a connect
exactly when the transport is absent or fully closed (not merely
connecting) AND the manual-close flag from a prior
`disconnect(preventReconnect: true)` is not in effect. -/
theorem c4_send_when_not_open (st : HookState) (m : OutMsg) (payload : String)
    (thr : Bool) (hser : serializePayload m = some payload)
    (hws : st.ws ≠ some SockState.opened) :
    (send m thr st).returned = false
  ∧ (send m thr st).state = { st with queue := st.queue ++ [payload] }
  ∧ ((send m thr st).connectCalled = true ↔
      ((st.ws = none ∨ st.ws = some SockState.closed) ∧
        st.manualClose = false)) := by
  have hcase : ∀ w : Option SockState, w = st.ws → w ≠ some SockState.opened →
      (send m thr st).returned = false
    ∧ (send m thr st).state = { st with queue := st.queue ++ [payload] }
    ∧ ((send m thr st).connectCalled = true ↔
        ((st.ws = none ∨ st.ws = some SockState.closed) ∧
          st.manualClose = false)) := by
    intro w hw hnot
    cases hmc : st.manualClose with
    | false =>
      cases w with
      | none => refine ⟨?_, ?_, ?_⟩ <;> simp [send, hser, ← hw, hmc]
      | some s =>
        cases s with
        | opened => exact absurd rfl hnot
        | connecting => refine ⟨?_, ?_, ?_⟩ <;> simp [send, hser, ← hw, hmc]
        | closing => refine ⟨?_, ?_, ?_⟩ <;> simp [send, hser, ← hw, hmc]
        | closed => refine ⟨?_, ?_, ?_⟩ <;> simp [send, hser, ← hw, hmc]
    | true =>
      cases w with
      | none => refine ⟨?_, ?_, ?_⟩ <;> simp [send, hser, ← hw, hmc]
      | some s =>
        cases s with
        | opened => exact absurd rfl hnot
        | connecting => refine ⟨?_, ?_, ?_⟩ <;> simp [send, hser, ← hw, hmc]
        | closing => refine ⟨?_, ?_, ?_⟩ <;> simp [send, hser, ← hw, hmc]
        | closed => refine ⟨?_, ?_, ?_⟩ <;> simp [send, hser, ← hw, hmc]
  exact hcase st.ws rfl hws

/-- Witness for C4 at a disconnected fresh state (no socket, manual
close not flagged): the send returns false, enqueues, and triggers a
connect. -/
theorem c4_send_when_not_open_witness :
    (send (OutMsg.jsString "hi") false
      { status := ConnStatus.disconnected, ws := none, timer := false,
        manualClose := false, attempts := 0, queue := [] }).returned = false
  ∧ (send (OutMsg.jsString "hi") false
      { status := ConnStatus.disconnected, ws := none, timer := false,
        manualClose := false, attempts := 0, queue := [] }).connectCalled
      = true := by
  have h := c4_send_when_not_open
    { status := ConnStatus.disconnected, ws := none, timer := false,
      manualClose := false, attempts := 0, queue := [] }
    (OutMsg.jsString "hi") "hi" false rfl (by decide)
  exact ⟨h.1, h.2.2.mpr ⟨Or.inl rfl, rfl⟩⟩

/-- C1 counterexample: at attempt 1, base delay 3, max delay 100 and
random draw 0 the code computes floor(3 - 0.6) = 2, but no jitter of
magnitude at most 20 percent of the exponential term 3 can clamp to 2
in the interval from 0 to 100: the claim as stated omits the
`Math.floor`, which can land just below the 20-percent band. -/
theorem c1_counterexample :
    computeBackoffDelay 0 1 3 100 = 2
  ∧ ¬ ∃ j : ℚ, |j| ≤ (1 / 5) * min 100 ((3 : ℚ) * 2 ^ ((1 : ℕ) - 1)) ∧
      computeBackoffDelay 0 1 3 100
        = max 0 (min 100 (min 100 ((3 : ℚ) * 2 ^ ((1 : ℕ) - 1)) + j)) := by
  have h2 : computeBackoffDelay 0 1 3 100 = 2 := by
    unfold computeBackoffDelay
    norm_num
  refine ⟨h2, ?_⟩
  rintro ⟨j, hj, heq⟩
  rw [h2] at heq
  have hmin : min (100 : ℚ) ((3 : ℚ) * 2 ^ ((1 : ℕ) - 1)) = 3 := by norm_num
  rw [hmin] at hj heq
  have hj' := abs_le.mp hj
  have h3 : min (100 : ℚ) (3 + j) = 3 + j := by
    apply min_eq_right
    linarith [hj'.2]
  have h4 : max (0 : ℚ) (3 + j) = 3 + j := by
    apply max_eq_right
    linarith [hj'.1]
  rw [h3, h4] at heq
  linarith [hj'.1]

/-- C1 (amended): the computed delay equals the floor of the
exponential term e = min(maxDelay, base * 2^(n-1)) plus a jitter of
magnitude at most 20 percent of e, clamped to the interval from 0 to
maxDelay; and in the scenario base 500, max 15000, attempt 4 the delay
lies between 3200 and 4800 and never exceeds 15000. -/
theorem c1_backoff_delay (rand : ℚ) (n : ℕ) (b m : ℚ)
    (h0 : 0 ≤ rand) (h1 : rand < 1) (hb : 0 ≤ b) (hm : 0 ≤ m) :
    (computeBackoffDelay rand n b m
      = max 0 (min m ((⌊min m (b * 2 ^ (n - 1)) +
          min m (b * 2 ^ (n - 1)) * (1 / 5) * (rand * 2 - 1)⌋ : ℤ) : ℚ)))
  ∧ |min m (b * 2 ^ (n - 1)) * (1 / 5) * (rand * 2 - 1)|
      ≤ (1 / 5) * min m (b * 2 ^ (n - 1))
  ∧ 0 ≤ computeBackoffDelay rand n b m
  ∧ computeBackoffDelay rand n b m ≤ m
  ∧ (3200 : ℚ) ≤ computeBackoffDelay rand 4 500 15000
  ∧ computeBackoffDelay rand 4 500 15000 ≤ 4800
  ∧ computeBackoffDelay rand 4 500 15000 ≤ 15000 := by
  have he : 0 ≤ min m (b * 2 ^ (n - 1)) := le_min hm (by positivity)
  have hx : |rand * 2 - 1| ≤ 1 := by
    rw [abs_le]
    constructor <;> linarith
  have hjit : |min m (b * 2 ^ (n - 1)) * (1 / 5) * (rand * 2 - 1)|
      ≤ (1 / 5) * min m (b * 2 ^ (n - 1)) := by
    rw [abs_mul, abs_mul, abs_of_nonneg he,
      abs_of_nonneg (by norm_num : (0 : ℚ) ≤ 1 / 5)]
    calc min m (b * 2 ^ (n - 1)) * (1 / 5) * |rand * 2 - 1|
        ≤ min m (b * 2 ^ (n - 1)) * (1 / 5) * 1 := by
          apply mul_le_mul_of_nonneg_left hx
          positivity
      _ = (1 / 5) * min m (b * 2 ^ (n - 1)) := by ring
  have hle : computeBackoffDelay rand n b m ≤ m :=
    max_le hm (min_le_left _ _)
  have hcomp : computeBackoffDelay rand 4 500 15000
      = max 0 (min 15000
          ((⌊(4000 : ℚ) + 4000 * (1 / 5) * (rand * 2 - 1)⌋ : ℤ) : ℚ)) := by
    unfold computeBackoffDelay
    norm_num
  have hx1 : (3200 : ℚ) ≤ 4000 + 4000 * (1 / 5) * (rand * 2 - 1) := by
    linarith
  have hx2 : (4000 : ℚ) + 4000 * (1 / 5) * (rand * 2 - 1) < 4800 := by
    linarith
  have hfl1 : (3200 : ℤ) ≤ ⌊(4000 : ℚ) + 4000 * (1 / 5) * (rand * 2 - 1)⌋ :=
    Int.le_floor.mpr (by exact_mod_cast hx1)
  have hfl1q : (3200 : ℚ) ≤
      ((⌊(4000 : ℚ) + 4000 * (1 / 5) * (rand * 2 - 1)⌋ : ℤ) : ℚ) := by
    exact_mod_cast hfl1
  have hfl2 : ((⌊(4000 : ℚ) + 4000 * (1 / 5) * (rand * 2 - 1)⌋ : ℤ) : ℚ) ≤ 4800 :=
    le_trans (Int.floor_le _) (le_of_lt hx2)
  have hminq : min (15000 : ℚ)
        ((⌊(4000 : ℚ) + 4000 * (1 / 5) * (rand * 2 - 1)⌋ : ℤ) : ℚ)
      = ((⌊(4000 : ℚ) + 4000 * (1 / 5) * (rand * 2 - 1)⌋ : ℤ) : ℚ) :=
    min_eq_right (by linarith)
  have hmaxq : max (0 : ℚ)
        ((⌊(4000 : ℚ) + 4000 * (1 / 5) * (rand * 2 - 1)⌋ : ℤ) : ℚ)
      = ((⌊(4000 : ℚ) + 4000 * (1 / 5) * (rand * 2 - 1)⌋ : ℤ) : ℚ) :=
    max_eq_right (by linarith)
  refine ⟨rfl, hjit, le_max_left _ _, hle, ?_, ?_, ?_⟩
  · rw [hcomp, hminq, hmaxq]
    exact hfl1q
  · rw [hcomp, hminq, hmaxq]
    exact hfl2
  · rw [hcomp, hminq, hmaxq]
    linarith

/-- Witness for C1 at the random draw one half (zero jitter): the
scenario delay is exactly 4000, within the claimed bounds. -/
theorem c1_backoff_delay_witness :
    ((0 : ℚ) ≤ 1 / 2 ∧ (1 / 2 : ℚ) < 1 ∧ (0 : ℚ) ≤ 500 ∧ (0 : ℚ) ≤ 15000)
  ∧ (3200 : ℚ) ≤ computeBackoffDelay (1 / 2) 4 500 15000
  ∧ computeBackoffDelay (1 / 2) 4 500 15000 ≤ 4800 := by
  have h := c1_backoff_delay (1 / 2) 4 500 15000 (by norm_num) (by norm_num)
    (by norm_num) (by norm_num)
  exact ⟨⟨by norm_num, by norm_num, by norm_num, by norm_num⟩,
    h.2.2.2.2.1, h.2.2.2.2.2.1⟩

/-! ### Dormant-state trace lemmas -/

/-- From a disconnected state with no socket and no pending timer,
transport callbacks and timer firings are disabled and further
`disconnect` calls keep the state dormant, so in the absence of
consumer `connect()` and `send()` calls the hook stays disconnected
with no timer ever armed and no socket. -/
theorem trace_stays_dormant (cfg : HookConfig) (evs : List HookEv) :
    ∀ st : HookState, st.status = ConnStatus.disconnected → st.timer = false →
      st.ws = none →
      (∀ e ∈ evs, isConnectEv e = false ∧ isSendEv e = false) →
      (runTrace cfg st evs).status = ConnStatus.disconnected ∧
      (runTrace cfg st evs).timer = false ∧ (runTrace cfg st evs).ws = none := by
  induction evs with
  | nil => intro st h1 h2 h3 _; exact ⟨h1, h2, h3⟩
  | cons e rest ih =>
    intro st h1 h2 h3 hev
    have hrest := fun e2 he2 => hev e2 (List.mem_cons_of_mem _ he2)
    have hself := hev e (List.mem_cons_self e rest)
    cases e with
    | connectEv ok => simp [isConnectEv] at hself
    | sendEv m t o => simp [isSendEv] at hself
    | disconnectEv p =>
      have heq : runTrace cfg st (HookEv.disconnectEv p :: rest)
          = runTrace cfg (disconnect p st) rest := by
        simp [runTrace, step]
      rw [heq]
      exact ih (disconnect p st) rfl rfl rfl hrest
    | timerFireEv ok =>
      have hstep : step cfg st (HookEv.timerFireEv ok) = none := by
        simp [step, h2]
      have heq : runTrace cfg st (HookEv.timerFireEv ok :: rest)
          = runTrace cfg st rest := by
        simp [runTrace, hstep]
      rw [heq]
      exact ih st h1 h2 h3 hrest
    | wsOpenEv f =>
      have hstep : step cfg st (HookEv.wsOpenEv f) = none := by
        simp [step, h3]
      have heq : runTrace cfg st (HookEv.wsOpenEv f :: rest)
          = runTrace cfg st rest := by
        simp [runTrace, hstep]
      rw [heq]
      exact ih st h1 h2 h3 hrest
    | wsCloseEv =>
      have hstep : step cfg st HookEv.wsCloseEv = none := by
        simp [step, h3]
      have heq : runTrace cfg st (HookEv.wsCloseEv :: rest)
          = runTrace cfg st rest := by
        simp [runTrace, hstep]
      rw [heq]
      exact ih st h1 h2 h3 hrest
    | wsErrorEv =>
      have hstep : step cfg st HookEv.wsErrorEv = none := by
        simp [step, h3]
      have heq : runTrace cfg st (HookEv.wsErrorEv :: rest)
          = runTrace cfg st rest := by
        simp [runTrace, hstep]
      rw [heq]
      exact ih st h1 h2 h3 hrest

/-- As above but with the manual-close flag set (the state left by
`disconnect(preventReconnect: true)`): here even consumer `send()`
calls stay dormant — they only enqueue, since the flag guards the
`connect()` call inside `send` — so only a consumer `connect()` (or a
`disconnect(preventReconnect: false)` followed by a send) can resume
activity. -/
theorem trace_stays_dormant_manual (cfg : HookConfig) (evs : List HookEv) :
    ∀ st : HookState, st.status = ConnStatus.disconnected → st.timer = false →
      st.ws = none → st.manualClose = true →
      (∀ e ∈ evs, isConnectEv e = false ∧ isDisconnectEv e = false) →
      (runTrace cfg st evs).status = ConnStatus.disconnected ∧
      (runTrace cfg st evs).timer = false ∧
      (runTrace cfg st evs).ws = none ∧
      (runTrace cfg st evs).manualClose = true := by
  induction evs with
  | nil => intro st h1 h2 h3 h4 _; exact ⟨h1, h2, h3, h4⟩
  | cons e rest ih =>
    intro st h1 h2 h3 h4 hev
    have hrest := fun e2 he2 => hev e2 (List.mem_cons_of_mem _ he2)
    have hself := hev e (List.mem_cons_self e rest)
    cases e with
    | connectEv ok => simp [isConnectEv] at hself
    | disconnectEv p => simp [isDisconnectEv] at hself
    | timerFireEv ok =>
      have hstep : step cfg st (HookEv.timerFireEv ok) = none := by
        simp [step, h2]
      have heq : runTrace cfg st (HookEv.timerFireEv ok :: rest)
          = runTrace cfg st rest := by
        simp [runTrace, hstep]
      rw [heq]
      exact ih st h1 h2 h3 h4 hrest
    | wsOpenEv f =>
      have hstep : step cfg st (HookEv.wsOpenEv f) = none := by
        simp [step, h3]
      have heq : runTrace cfg st (HookEv.wsOpenEv f :: rest)
          = runTrace cfg st rest := by
        simp [runTrace, hstep]
      rw [heq]
      exact ih st h1 h2 h3 h4 hrest
    | wsCloseEv =>
      have hstep : step cfg st HookEv.wsCloseEv = none := by
        simp [step, h3]
      have heq : runTrace cfg st (HookEv.wsCloseEv :: rest)
          = runTrace cfg st rest := by
        simp [runTrace, hstep]
      rw [heq]
      exact ih st h1 h2 h3 h4 hrest
    | wsErrorEv =>
      have hstep : step cfg st HookEv.wsErrorEv = none := by
        simp [step, h3]
      have heq : runTrace cfg st (HookEv.wsErrorEv :: rest)
          = runTrace cfg st rest := by
        simp [runTrace, hstep]
      rw [heq]
      exact ih st h1 h2 h3 h4 hrest
    | sendEv m thr ok =>
      cases hm : serializePayload m with
      | none =>
        have hstep : step cfg st (HookEv.sendEv m thr ok) = some st := by
          simp [step, send, hm]
        have heq : runTrace cfg st (HookEv.sendEv m thr ok :: rest)
            = runTrace cfg st rest := by
          simp [runTrace, hstep]
        rw [heq]
        exact ih st h1 h2 h3 h4 hrest
      | some payload =>
        have hstep : step cfg st (HookEv.sendEv m thr ok)
            = some { st with queue := st.queue ++ [payload] } := by
          simp [step, send, hm, h3, h4]
        have heq : runTrace cfg st (HookEv.sendEv m thr ok :: rest)
            = runTrace cfg { st with queue := st.queue ++ [payload] } rest := by
          simp [runTrace, hstep]
        rw [heq]
        exact ih { st with queue := st.queue ++ [payload] } h1 h2 h3 h4 hrest

/-- C7: with reconnection enabled and a finite maximum retry count,
once the next attempt number would exceed the maximum,
`scheduleReconnect` only sets status disconnected — it arms no timer
and leaves the attempt counter alone — and from the resulting
quiescent state (no socket, no timer) every transport or timer event
is disabled, so the status remains disconnected permanently until a
consumer `connect()` (or `send()`) occurs. -/
theorem c7_retry_budget_exhausted (cfg : HookConfig) (st : HookState) (k : ℕ)
    (hmax : cfg.maxRetries = (k : ℕ∞)) (hsr : cfg.shouldReconnect = true)
    (hmc : st.manualClose = false) (hatt : k < st.attempts + 1)
    (hws : st.ws = none) (htimer : st.timer = false) :
    scheduleReconnect cfg st = { st with status := ConnStatus.disconnected }
  ∧ (scheduleReconnect cfg st).timer = false
  ∧ (scheduleReconnect cfg st).attempts = st.attempts
  ∧ ∀ evs, (∀ e ∈ evs, isConnectEv e = false ∧ isSendEv e = false) →
      (runTrace cfg (scheduleReconnect cfg st) evs).status
          = ConnStatus.disconnected
    ∧ (runTrace cfg (scheduleReconnect cfg st) evs).timer = false := by
  have hgt : cfg.maxRetries < (st.attempts : ℕ∞) + 1 := by
    rw [hmax]
    exact_mod_cast hatt
  have hsched : scheduleReconnect cfg st
      = { st with status := ConnStatus.disconnected } := by
    unfold scheduleReconnect
    rw [hsr, hmc]
    simp [hgt]
  refine ⟨hsched, by rw [hsched]; exact htimer, by rw [hsched], ?_⟩
  intro evs hevs
  have h := trace_stays_dormant cfg evs (scheduleReconnect cfg st)
    (by rw [hsched]) (by rw [hsched]; exact htimer) (by rw [hsched]; exact hws)
    hevs
  exact ⟨h.1, h.2.1⟩

/-- Witness for C7: maximum 2 retries already used; a close, a timer
firing, an error and a plain disconnect all leave the hook
disconnected with no timer. -/
theorem c7_retry_budget_exhausted_witness :
    (scheduleReconnect { shouldReconnect := true, maxRetries := ((2 : ℕ) : ℕ∞) }
        { status := ConnStatus.disconnected, ws := none, timer := false,
          manualClose := false, attempts := 2, queue := [] }).timer = false
  ∧ (runTrace { shouldReconnect := true, maxRetries := ((2 : ℕ) : ℕ∞) }
        (scheduleReconnect { shouldReconnect := true, maxRetries := ((2 : ℕ) : ℕ∞) }
          { status := ConnStatus.disconnected, ws := none, timer := false,
            manualClose := false, attempts := 2, queue := [] })
        [HookEv.wsCloseEv, HookEv.timerFireEv true, HookEv.wsErrorEv,
         HookEv.disconnectEv false]).status = ConnStatus.disconnected := by
  have h := c7_retry_budget_exhausted
    { shouldReconnect := true, maxRetries := ((2 : ℕ) : ℕ∞) }
    { status := ConnStatus.disconnected, ws := none, timer := false,
      manualClose := false, attempts := 2, queue := [] }
    2 rfl rfl rfl (by norm_num) rfl rfl
  refine ⟨h.2.1, ?_⟩
  have h4 := h.2.2.2
    [HookEv.wsCloseEv, HookEv.timerFireEv true, HookEv.wsErrorEv,
     HookEv.disconnectEv false]
    ?_
  · exact h4.1
  · intro e he
    fin_cases he <;> exact ⟨rfl, rfl⟩

/-- C9: any `disconnect()` clears the pending reconnect timer and
removes the socket (detaching its close handler), so afterwards — with
no consumer `connect()` or `send()` — no reconnect timer is ever armed
and the status stays disconnected; and when `preventReconnect` was
true, even subsequent `send()` calls only enqueue (the manual-close
flag guards the connect), so activity resumes only through an explicit
`connect()`. -/
theorem c9_disconnect_suppresses_reconnect (cfg : HookConfig) (st : HookState)
    (p : Bool) :
    (disconnect p st).timer = false
  ∧ (disconnect p st).ws = none
  ∧ (disconnect p st).status = ConnStatus.disconnected
  ∧ (∀ evs, (∀ e ∈ evs, isConnectEv e = false ∧ isSendEv e = false) →
      (runTrace cfg (disconnect p st) evs).status = ConnStatus.disconnected
    ∧ (runTrace cfg (disconnect p st) evs).timer = false
    ∧ (runTrace cfg (disconnect p st) evs).ws = none)
  ∧ (∀ evs, (∀ e ∈ evs, isConnectEv e = false ∧ isDisconnectEv e = false) →
      (runTrace cfg (disconnect true st) evs).status = ConnStatus.disconnected
    ∧ (runTrace cfg (disconnect true st) evs).timer = false
    ∧ (runTrace cfg (disconnect true st) evs).ws = none) := by
  refine ⟨rfl, rfl, rfl, ?_, ?_⟩
  · intro evs hevs
    exact trace_stays_dormant cfg evs (disconnect p st) rfl rfl rfl hevs
  · intro evs hevs
    have h := trace_stays_dormant_manual cfg evs (disconnect true st)
      rfl rfl rfl rfl hevs
    exact ⟨h.1, h.2.1, h.2.2.1⟩

/-- Witness for C9: after `disconnect(preventReconnect: true)`, a
close event, a timer firing and even a send leave the hook
disconnected with no timer armed. -/
theorem c9_disconnect_suppresses_reconnect_witness :
    (disconnect true
      { status := ConnStatus.connected, ws := some SockState.opened,
        timer := true, manualClose := false, attempts := 3,
        queue := [] }).timer = false
  ∧ (runTrace { shouldReconnect := true, maxRetries := ⊤ }
      (disconnect true
        { status := ConnStatus.connected, ws := some SockState.opened,
          timer := true, manualClose := false, attempts := 3, queue := [] })
      [HookEv.wsCloseEv, HookEv.timerFireEv true,
       HookEv.sendEv (OutMsg.jsString "queued") false true]).timer = false := by
  have h := c9_disconnect_suppresses_reconnect
    { shouldReconnect := true, maxRetries := ⊤ }
    { status := ConnStatus.connected, ws := some SockState.opened,
      timer := true, manualClose := false, attempts := 3, queue := [] }
    true
  refine ⟨h.1, ?_⟩
  have h5 := h.2.2.2.2
    [HookEv.wsCloseEv, HookEv.timerFireEv true,
     HookEv.sendEv (OutMsg.jsString "queued") false true]
    ?_
  · exact h5.2.1
  · intro e he
    fin_cases he <;> exact ⟨rfl, rfl⟩

/-- C8: history retrieval tries GET on apiBase/messages then
apiBase/api/messages, in that order; a response body decoded as a bare
array, as an object carrying an array under the key messages, or under
the key data is accepted and mapped to display records; every other
response shape, and every network or HTTP failure on both candidates,
yields the empty result.  `fetchRecentMessagesSafe` is total, so no
error surfaces to the caller. -/
theorem c8_history_retrieval (strOfNum : ℚ → String) (now : ℕ)
    (apiBase : String) (resp : String → FetchOutcome) (hbase : apiBase ≠ "") :
    fetchCandidates apiBase
      = [apiBase ++ "/messages", apiBase ++ "/api/messages"]
  ∧ (∀ v xs, resp (apiBase ++ "/messages") = FetchOutcome.body v →
      jsFalsy v = false → extractList v = xs → xs ≠ [] →
      fetchRecentMessagesSafe strOfNum now apiBase resp
        = xs.mapIdx fun i item => toMessage strOfNum now item i)
  ∧ (∀ xs : List JsVal, extractList (JsVal.arr xs) = xs)
  ∧ (∀ xs : List JsVal,
      extractList (JsVal.obj [("messages", JsVal.arr xs)]) = xs)
  ∧ (∀ xs : List JsVal,
      extractList (JsVal.obj [("data", JsVal.arr xs)]) = xs)
  ∧ (emptyOutcome (resp (apiBase ++ "/messages")) →
      emptyOutcome (resp (apiBase ++ "/api/messages")) →
      fetchRecentMessagesSafe strOfNum now apiBase resp = [])
  ∧ fetchRecentMessagesSafe strOfNum now "" resp = [] := by
  refine ⟨rfl, ?_, fun xs => rfl, ?_, ?_, ?_, by simp [fetchRecentMessagesSafe]⟩
  · intro v xs h1 h2 h3 h4
    have h4' : xs.isEmpty = false := by
      cases xs with
      | nil => exact absurd rfl h4
      | cons a t => rfl
    simp [fetchRecentMessagesSafe, hbase, fetchCandidates, fetchLoop, h1, h2,
      h3, h4']
  · intro xs
    simp [extractList, jsGet, lookupField]
  · intro xs
    simp [extractList, jsGet, lookupField]
  · intro h1 h2
    have h2' : fetchLoop strOfNum now resp [apiBase ++ "/api/messages"] = [] := by
      rcases hr2 : resp (apiBase ++ "/api/messages") with _ | _ | v2
      · simp [fetchLoop, hr2]
      · simp [fetchLoop, hr2]
      · rw [hr2] at h2
        simp only [emptyOutcome] at h2
        by_cases hf : jsFalsy v2 = true
        · simp [fetchLoop, hr2, hf]
        · rcases h2 with h2a | h2b
          · exact absurd h2a hf
          · simp [fetchLoop, hr2, hf, h2b]
    have hmain : fetchLoop strOfNum now resp
        [apiBase ++ "/messages", apiBase ++ "/api/messages"] = [] := by
      rcases hr1 : resp (apiBase ++ "/messages") with _ | _ | v1
      · simpa [fetchLoop, hr1] using h2'
      · simpa [fetchLoop, hr1] using h2'
      · rw [hr1] at h1
        simp only [emptyOutcome] at h1
        by_cases hf : jsFalsy v1 = true
        · simpa [fetchLoop, hr1, hf] using h2'
        · rcases h1 with h1a | h1b
          · exact absurd h1a hf
          · simp [fetchLoop, hr1, hf, h1b]
    simpa [fetchRecentMessagesSafe, hbase, fetchCandidates] using hmain

/-- Witness for C8: api base "b", the first candidate answers with the
bare array containing the string "m", the second candidate is
unreachable; the result is that array mapped to display records. -/
theorem c8_history_retrieval_witness :
    ("b" : String) ≠ ""
  ∧ fetchRecentMessagesSafe (fun _ => "") 0 "b"
      (fun u => if u = "b" ++ "/messages"
        then FetchOutcome.body (JsVal.arr [JsVal.str "m"])
        else FetchOutcome.netErr)
      = ([JsVal.str "m"].mapIdx
          fun i item => toMessage (fun _ => "") 0 item i) := by
  refine ⟨by decide, ?_⟩
  exact (c8_history_retrieval (fun _ => "") 0 "b" _ (by decide)).2.1
    (JsVal.arr [JsVal.str "m"]) [JsVal.str "m"] (by simp) rfl rfl (by simp)

end ChatClient
